import Mathlib

set_option maxHeartbeats 1000000

/-
Shallow embedding of the recognition session controller implemented by the
`useSpeechRecognition` hook in src/src/index.ts.

Modelling decisions, all taken from the source:
* Texts are `List Char`; confidences are `Rat` (they are only stored and
  compared, never computed with).
* The configured match pattern (`_options.regex`, by default
  `new RegExp('hello world', 'gi')`) is modelled as a literal-source regex
  with the `g` flag and an optional `i` flag.  JavaScript's `matchAll`
  requires the `g` flag, and the code relies on it, so the model fixes the
  regex as global.  The regex object's mutable `lastIndex`, which both
  `matchAll` (via the clone's inherited `lastIndex`) and `test` consult and
  which `test` mutates, is threaded explicitly through the state.
* `Math.random() * 1e12 |> toString(16) |> split('.')[0]` (line 99) is the
  base-16 representation of the integer part of the draw; the stream of
  integer parts of the successive draws is an explicit input `rng` of the
  model (`List Nat`), consumed one value per finalized entry.
* The engine (`SpeechRecognition` instance) is modelled by its assignable
  config fields plus counters of how often its `start`/`stop`/`abort`
  primitives were invoked; `setTimeout(f, 0)` becomes a FIFO queue of
  scheduled tasks run by an explicit scheduler step.
* React specifics visible in the source: `initializeSpeechRecognition` runs
  exactly once (the `isInitialized` guard, lines 188/212), so the handlers
  assigned to the engine (lines 175-186) are the closures created from the
  options in force at initialization time.  The model therefore keeps two
  option records: `opts`, the current `_options` state (updated by the
  functional merge in `start`, lines 141-145), and `wired`, the snapshot
  the wired handlers read.  Callback invocations made to caller-supplied
  observer slots are recorded in an append-only `emitted` log.
-/

namespace SpeechRec

/-- A JavaScript regex with a literal source, the `g` flag, and an optional
`i` flag, as constructed by `new RegExp('hello world', 'gi')` (line 62). -/
structure JsRegex where
  source : List Char
  ignoreCase : Bool
deriving DecidableEq

/-- Case comparison of one pattern character against one text character,
per the `i` flag (ASCII case folding suffices for the sources involved). -/
def charMatches (ic : Bool) (p c : Char) : Bool :=
  if ic then p.toLower == c.toLower else p == c

/-- Does the pattern literal match a prefix of the text? -/
def isLitMatch (ic : Bool) : List Char → List Char → Bool
  | [], _ => true
  | _ :: _, [] => false
  | p :: ps, c :: cs => charMatches ic p c && isLitMatch ic ps cs

/-- Does the regex match starting exactly at position `j` of `s`? -/
def matchesAt (re : JsRegex) (s : List Char) (j : Nat) : Bool :=
  isLitMatch re.ignoreCase re.source (s.drop j)

/-- The position of the first match at or after `li`, if any: the search a
global regex performs, advancing one code unit at a time, failing once the
start position exceeds the string length (RegExpBuiltinExec). -/
def findFrom (re : JsRegex) (s : List Char) (li : Nat) : Option Nat :=
  ((List.range (s.length + 1 - li)).map (fun k => li + k)).find?
    (fun j => matchesAt re s j)

/-- `regex.test(s)` for a global regex with current `lastIndex = li`:
returns the verdict and the new `lastIndex` (end of the match on success,
0 on failure). -/
def jsTest (re : JsRegex) (s : List Char) (li : Nat) : Bool × Nat :=
  match findFrom re s li with
  | some j => (true, j + re.source.length)
  | none => (false, 0)

/-- One step of the `matchAll` iterator chain: all matches found from start
position `li` on, as (position, matched slice) pairs.  After a match the
clone's `lastIndex` moves to its end (plus one for an empty match).  `fuel`
bounds the recursion; `s.length + 2` is always enough. -/
def matchAllFrom (re : JsRegex) (s : List Char) : Nat → Nat → List (Nat × List Char)
  | 0, _ => []
  | fuel + 1, li =>
    match findFrom re s li with
    | none => []
    | some j =>
      (j, (s.drop j).take re.source.length) ::
        matchAllFrom re s fuel (j + max re.source.length 1)

/-- `[...s.matchAll(re)]` where the regex object currently has
`lastIndex = li`: the spec-mandated clone inherits `li` and iterates from
there; the original regex's `lastIndex` is not modified. -/
def jsMatchAll (re : JsRegex) (s : List Char) (li : Nat) : List (Nat × List Char) :=
  matchAllFrom re s (s.length + 2) li

/-- The pattern-match step of `handleResult` (lines 108-115):
`([...t.matchAll(re)].pop()?.[0] || '').toLowerCase()` followed by
`re.test(...)`, returning the stored match (`some` for `setMatch(str)`,
`none` for `setMatch(null)`) together with the regex object's new
`lastIndex` (mutated by `test`). -/
def scanStep (re : JsRegex) (t : List Char) (li : Nat) : Option (List Char) × Nat :=
  let ms := jsMatchAll re t li
  let mc := (((ms.getLast?).map Prod.snd).getD []).map Char.toLower
  let r := jsTest re mc li
  (if r.1 then some mc else none, r.2)

/-- One base-16 digit character, lowercase, as produced by
`Number.prototype.toString(16)`. -/
def hexDigit (n : Nat) : Char :=
  if n < 10 then Char.ofNat (48 + n) else Char.ofNat (87 + n)

/-- Base-16 representation of a natural number, lowercase and without
leading zeros: `n.toString(16)` for a nonnegative integer, hence the id
produced by line 99 when `n` is the integer part of the scaled draw. -/
def hexRep (n : Nat) : List Char :=
  if _h : n < 16 then [hexDigit n]
  else hexRep (n / 16) ++ [hexDigit (n % 16)]
termination_by n
decreasing_by
  exact Nat.div_lt_self (by omega) (by omega)

/-- The optional fields accepted by `start`/`restart` (interface
`StartOptions`, lines 12-19). -/
structure StartOptions where
  continuous : Option Bool := none
  grammar : Option (List Char) := none
  interimResults : Option Bool := none
  lang : Option (List Char) := none
  maxAlternatives : Option Nat := none
  regex : Option JsRegex := none
deriving DecidableEq

/-- The fully-populated option record (`Required<SpeechRecognitionOptions>`,
lines 56-78); observer callback slots are modelled by whether the caller
supplied a handler (`true`) or the slot is `null` (`false`). -/
structure Opts where
  continuous : Bool
  grammar : List Char
  interimResults : Bool
  lang : List Char
  maxAlternatives : Nat
  regex : JsRegex
  startOnLoad : Bool
  onaudioend : Bool
  onaudiostart : Bool
  onend : Bool
  onerror : Bool
  onnomatch : Bool
  onresult : Bool
  onsoundend : Bool
  onsoundstart : Bool
  onspeechend : Bool
  onspeechstart : Bool
  onstart : Bool
deriving DecidableEq

/-- Options a caller may pass to the hook itself
(`SpeechRecognitionOptions`, lines 20-34). -/
structure UserOpts where
  continuous : Option Bool := none
  grammar : Option (List Char) := none
  interimResults : Option Bool := none
  lang : Option (List Char) := none
  maxAlternatives : Option Nat := none
  regex : Option JsRegex := none
  startOnLoad : Option Bool := none
  onaudioend : Bool := false
  onaudiostart : Bool := false
  onend : Bool := false
  onerror : Bool := false
  onnomatch : Bool := false
  onresult : Bool := false
  onsoundend : Bool := false
  onsoundstart : Bool := false
  onspeechend : Bool := false
  onspeechstart : Bool := false
  onstart : Bool := false
deriving DecidableEq

/-- The object spread `{ ...prev, ...startOptions }` (lines 142-145):
fields present in the override replace the previous value, absent fields
keep it. -/
def mergeOpts (prev : Opts) (o : StartOptions) : Opts :=
  { prev with
      continuous := o.continuous.getD prev.continuous
      grammar := o.grammar.getD prev.grammar
      interimResults := o.interimResults.getD prev.interimResults
      lang := o.lang.getD prev.lang
      maxAlternatives := o.maxAlternatives.getD prev.maxAlternatives
      regex := o.regex.getD prev.regex }

/-- The default regex `new RegExp('hello world', 'gi')` (line 62). -/
def defaultRegex : JsRegex :=
  { source := "hello world".toList, ignoreCase := true }

/-- The default grammar string (line 58). -/
def defaultGrammar : List Char :=
  "#JSGF V1.0; grammar word; public <word> = hello world ;".toList

/-- The default option values of the `useState` initializer (lines 56-76). -/
def defaultOpts : Opts where
  continuous := true
  grammar := defaultGrammar
  interimResults := true
  lang := "en-US".toList
  maxAlternatives := 1
  regex := defaultRegex
  startOnLoad := true
  onaudioend := false
  onaudiostart := false
  onend := false
  onerror := false
  onnomatch := false
  onresult := false
  onsoundend := false
  onsoundstart := false
  onspeechend := false
  onspeechstart := false
  onstart := false

/-- `{ defaults..., ...options }` (lines 56-78). -/
def mergeUserOpts (d : Opts) (u : UserOpts) : Opts where
  continuous := u.continuous.getD d.continuous
  grammar := u.grammar.getD d.grammar
  interimResults := u.interimResults.getD d.interimResults
  lang := u.lang.getD d.lang
  maxAlternatives := u.maxAlternatives.getD d.maxAlternatives
  regex := u.regex.getD d.regex
  startOnLoad := u.startOnLoad.getD d.startOnLoad
  onaudioend := u.onaudioend
  onaudiostart := u.onaudiostart
  onend := u.onend
  onerror := u.onerror
  onnomatch := u.onnomatch
  onresult := u.onresult
  onsoundend := u.onsoundend
  onsoundstart := u.onsoundstart
  onspeechend := u.onspeechend
  onspeechstart := u.onspeechstart
  onstart := u.onstart

/-- A stored transcript entry (interface `Transcript`, lines 36-41). -/
structure Transcript where
  id : List Char
  confidence : Rat
  isFinal : Bool
  transcript : List Char
deriving DecidableEq

/-- One recognition alternative of a result (text plus confidence). -/
structure SRAlternative where
  transcript : List Char
  confidence : Rat
deriving DecidableEq

/-- One entry of the event's result list. -/
structure SRResult where
  alternatives : List SRAlternative
  isFinal : Bool
deriving DecidableEq

/-- The engine (`SpeechRecognition` instance): its assignable config fields
and how often each control primitive has been invoked on it. -/
structure Engine where
  grammars : List Char
  continuous : Bool
  interimResults : Bool
  lang : List Char
  maxAlternatives : Nat
  startCount : Nat
  stopCount : Nat
  abortCount : Nat
deriving DecidableEq

/-- Caller-supplied observer slots, used to log which external callbacks
the controller invokes. -/
inductive CB
  | cbAudioEnd
  | cbAudioStart
  | cbEnd
  | cbError
  | cbNoMatch
  | cbResult
  | cbSoundEnd
  | cbSoundStart
  | cbSpeechEnd
  | cbSpeechStart
  | cbStart
deriving DecidableEq

/-- A task sitting in the `setTimeout(..., 0)` queue: the raw engine start
scheduled by `handleEnd` (line 133), or the wrapper `start(startOptions)`
scheduled by `restart` (line 153). -/
inductive STask
  | engineStart
  | wrapperStart (so : Option StartOptions)
deriving DecidableEq

/-- The full controller state. -/
structure CState where
  opts : Opts
  wired : Opts
  wiredRegexLI : Nat
  transcripts : List Transcript
  liveTranscript : List Char
  matchSt : Option (List Char)
  isInitialized : Bool
  isListening : Bool
  rng : List Nat
  engine : Engine
  scheduled : List STask
  emitted : List CB
deriving DecidableEq

/-- Append an external-callback invocation to the log when the slot is
non-null (`if (func) func(event)`, lines 171-173). -/
def emitIf (b : Bool) (c : CB) (s : CState) : CState :=
  if b then { s with emitted := s.emitted ++ [c] } else s

/-- `handleStart` (lines 122-128): on the engine's start notification the
code invokes the caller's `onend` slot (sic) and sets the listening flag. -/
def handleStart (s : CState) : CState :=
  let s1 := emitIf s.wired.onend CB.cbEnd s
  { s1 with isListening := true }

/-- `handleEnd` (lines 130-138): stop the engine, schedule a raw engine
start when the wired `continuous` flag is set, invoke the caller's `onend`
slot, clear the listening flag. -/
def handleEnd (s : CState) : CState :=
  let s1 := { s with engine := { s.engine with stopCount := s.engine.stopCount + 1 } }
  let s2 :=
    if s1.wired.continuous then
      { s1 with scheduled := s1.scheduled ++ [STask.engineStart] }
    else s1
  let s3 := emitIf s2.wired.onend CB.cbEnd s2
  { s3 with isListening := false }

/-- `handleResult` (lines 90-120): select the indexed result and its top
alternative (a missing result or alternative throws before any state
change, so the state is left untouched); a final result appends a ledger
entry with a fresh hex id and clears the live transcript, an interim result
overwrites the live transcript; then the pattern-match step runs on the
extracted text and the caller's `onresult` slot fires. -/
def applyResult (rs : List SRResult) (idx : Nat) (s : CState) : CState :=
  match rs[idx]? with
  | none => s
  | some r =>
    match r.alternatives[0]? with
    | none => s
    | some alt =>
      let s1 :=
        if r.isFinal then
          { s with
              transcripts := s.transcripts ++
                [{ id := hexRep (s.rng.headD 0), confidence := alt.confidence,
                   isFinal := r.isFinal, transcript := alt.transcript }]
              rng := s.rng.tail
              liveTranscript := [] }
        else { s with liveTranscript := alt.transcript }
      let sc := scanStep s.wired.regex alt.transcript s.wiredRegexLI
      let s2 := { s1 with matchSt := sc.1, wiredRegexLI := sc.2 }
      if s.wired.onresult then { s2 with emitted := s2.emitted ++ [CB.cbResult] }
      else s2

/-- The wrapper `start` (lines 140-148): merge any overrides into the
option state, then either no-op (already listening) or invoke the engine's
start primitive. -/
def startFn (so : Option StartOptions) (s : CState) : CState :=
  let s1 :=
    match so with
    | some o => { s with opts := mergeOpts s.opts o }
    | none => s
  if s1.isListening then s1
  else { s1 with engine := { s1.engine with startCount := s1.engine.startCount + 1 } }

/-- `restart` (lines 150-156): invoke the engine's stop primitive and
schedule the wrapper start on the timeout queue. -/
def restartFn (so : Option StartOptions) (s : CState) : CState :=
  { s with
      engine := { s.engine with stopCount := s.engine.stopCount + 1 }
      scheduled := s.scheduled ++ [STask.wrapperStart so] }

/-- Run the next scheduled `setTimeout(..., 0)` task, if any. -/
def runScheduled (s : CState) : CState :=
  match s.scheduled with
  | [] => s
  | t :: rest =>
    let s1 := { s with scheduled := rest }
    match t with
    | STask.engineStart =>
      { s1 with engine := { s1.engine with startCount := s1.engine.startCount + 1 } }
    | STask.wrapperStart so => startFn so s1

/-- The engine notifications the event bridge reacts to (lines 175-186). -/
inductive ENotif
  | audiostart
  | audioend
  | soundstart
  | soundend
  | speechstart
  | speechend
  | noMatchN
  | error
  | startN
  | endN
  | result (rs : List SRResult) (idx : Nat)

/-- Dispatch of one engine notification through the wired handlers. -/
def applyNotif : ENotif → CState → CState
  | ENotif.audiostart, s => emitIf s.wired.onaudiostart CB.cbAudioStart s
  | ENotif.audioend, s => emitIf s.wired.onaudioend CB.cbAudioEnd s
  | ENotif.soundstart, s => emitIf s.wired.onsoundstart CB.cbSoundStart s
  | ENotif.soundend, s => emitIf s.wired.onsoundend CB.cbSoundEnd s
  | ENotif.speechstart, s => emitIf s.wired.onspeechstart CB.cbSpeechStart s
  | ENotif.speechend, s => emitIf s.wired.onspeechend CB.cbSpeechEnd s
  | ENotif.noMatchN, s => emitIf s.wired.onnomatch CB.cbNoMatch s
  | ENotif.error, s => emitIf s.wired.onerror CB.cbError s
  | ENotif.startN, s => handleStart s
  | ENotif.endN, s => handleEnd s
  | ENotif.result rs idx, s => applyResult rs idx s

/-- Everything that can happen to the controller after initialization: an
engine notification, a control-surface call, or the scheduler running the
next queued task. -/
inductive Action
  | notif (n : ENotif)
  | callStart (so : Option StartOptions)
  | callRestart (so : Option StartOptions)
  | callStop
  | callAbort
  | runTask

/-- One atomic step of the controller. -/
def step : Action → CState → CState
  | Action.notif n, s => applyNotif n s
  | Action.callStart so, s => startFn so s
  | Action.callRestart so, s => restartFn so s
  | Action.callStop, s =>
    { s with engine := { s.engine with stopCount := s.engine.stopCount + 1 } }
  | Action.callAbort, s =>
    { s with engine := { s.engine with abortCount := s.engine.abortCount + 1 } }
  | Action.runTask, s => runScheduled s

/-- The state of the hook right after the `useState`/`useRef` initializers
run, before the initialization effect: empty ledger, empty live transcript,
no match, a fresh (browser-default) engine, the supplied entropy stream. -/
def freshState (u : UserOpts) (rng : List Nat) : CState where
  opts := mergeUserOpts defaultOpts u
  wired := mergeUserOpts defaultOpts u
  wiredRegexLI := 0
  transcripts := []
  liveTranscript := []
  matchSt := none
  isInitialized := false
  isListening := false
  rng := rng
  engine :=
    { grammars := []
      continuous := false
      interimResults := false
      lang := []
      maxAlternatives := 1
      startCount := 0
      stopCount := 0
      abortCount := 0 }
  scheduled := []
  emitted := []

/-- The one-time initialization effect (lines 161-213): push the current
options into the engine's config fields, wire the handlers (so `wired`
snapshots the current options), mark initialized, and start the engine if
`startOnLoad` is set.  The `isInitialized` guard (line 212) prevents this
from ever running again. -/
def initSpeechRecognition (s : CState) : CState :=
  let e :=
    { s.engine with
        grammars := s.opts.grammar
        continuous := s.opts.continuous
        interimResults := s.opts.interimResults
        lang := s.opts.lang
        maxAlternatives := s.opts.maxAlternatives }
  let s1 := { s with engine := e, wired := s.opts, isInitialized := true }
  if s1.opts.startOnLoad then
    { s1 with engine := { s1.engine with startCount := s1.engine.startCount + 1 } }
  else s1

/-- A freshly mounted controller: initializers plus the one-time effect. -/
def mkController (u : UserOpts) (rng : List Nat) : CState :=
  initSpeechRecognition (freshState u rng)

/-- Run a list of actions in order. -/
def runActions (s : CState) (acts : List Action) : CState :=
  acts.foldl (fun t a => step a t) s

/-- A single-result event carrying one interim alternative. -/
def interimEvent (a : SRAlternative) : ENotif :=
  ENotif.result [{ alternatives := [a], isFinal := false }] 0

/-- A single-result event carrying one final alternative. -/
def finalEvent (a : SRAlternative) : ENotif :=
  ENotif.result [{ alternatives := [a], isFinal := true }] 0

/-- Deliver a list of interim results in order. -/
def applyInterims (s : CState) (alts : List SRAlternative) : CState :=
  alts.foldl (fun t a => step (Action.notif (interimEvent a)) t) s

/-- The spec's session lifecycle states. -/
inductive LifecycleState
  | uninit
  | idle
  | listening
deriving DecidableEq

/-- The lifecycle state read off the controller flags. -/
def lifecycleOf (s : CState) : LifecycleState :=
  if s.isInitialized then
    (if s.isListening then LifecycleState.listening else LifecycleState.idle)
  else LifecycleState.uninit

/-- The spec's example text with two occurrences of the default pattern. -/
def exText : List Char := "I said hello world twice: hello world".toList

/-- The default pattern's text, also the matched substring of the examples. -/
def hwText : List Char := "hello world".toList

/-- The spec's no-match example text. -/
def gbText : List Char := "goodbye".toList

/-- Concrete run: mount with defaults, receive the engine's start
notification, then override `continuous := false` through `start`, then
receive the engine's end notification. -/
def c1State : CState :=
  step (Action.notif ENotif.endN)
    (step (Action.callStart (some { continuous := some false }))
      (step (Action.notif ENotif.startN) (mkController {} [])))

/-- Concrete run: a freshly mounted controller with default options. -/
def c7Start : CState := mkController {} []

/-- Concrete run: `start({ lang: "fr-FR" })` on the fresh controller. -/
def c7State : CState :=
  step (Action.callStart (some { lang := some ("fr-FR".toList) })) c7Start

/-- Concrete run: two final results while the id entropy source yields the
same integer part twice. -/
def c9State : CState :=
  step (Action.notif (finalEvent ⟨"b".toList, 1⟩))
    (step (Action.notif (finalEvent ⟨"a".toList, 1⟩)) (mkController {} [5, 5]))

/-! Helper lemmas about the embedded operations. -/

@[simp] theorem emitIf_engine (b : Bool) (c : CB) (s : CState) :
    (emitIf b c s).engine = s.engine := by
  unfold emitIf; split <;> rfl

@[simp] theorem emitIf_scheduled (b : Bool) (c : CB) (s : CState) :
    (emitIf b c s).scheduled = s.scheduled := by
  unfold emitIf; split <;> rfl

@[simp] theorem emitIf_isListening (b : Bool) (c : CB) (s : CState) :
    (emitIf b c s).isListening = s.isListening := by
  unfold emitIf; split <;> rfl

@[simp] theorem emitIf_isInitialized (b : Bool) (c : CB) (s : CState) :
    (emitIf b c s).isInitialized = s.isInitialized := by
  unfold emitIf; split <;> rfl

@[simp] theorem emitIf_transcripts (b : Bool) (c : CB) (s : CState) :
    (emitIf b c s).transcripts = s.transcripts := by
  unfold emitIf; split <;> rfl

@[simp] theorem emitIf_liveTranscript (b : Bool) (c : CB) (s : CState) :
    (emitIf b c s).liveTranscript = s.liveTranscript := by
  unfold emitIf; split <;> rfl

@[simp] theorem emitIf_matchSt (b : Bool) (c : CB) (s : CState) :
    (emitIf b c s).matchSt = s.matchSt := by
  unfold emitIf; split <;> rfl

@[simp] theorem emitIf_rng (b : Bool) (c : CB) (s : CState) :
    (emitIf b c s).rng = s.rng := by
  unfold emitIf; split <;> rfl

@[simp] theorem emitIf_wired (b : Bool) (c : CB) (s : CState) :
    (emitIf b c s).wired = s.wired := by
  unfold emitIf; split <;> rfl

@[simp] theorem emitIf_opts (b : Bool) (c : CB) (s : CState) :
    (emitIf b c s).opts = s.opts := by
  unfold emitIf; split <;> rfl

@[simp] theorem emitIf_wiredRegexLI (b : Bool) (c : CB) (s : CState) :
    (emitIf b c s).wiredRegexLI = s.wiredRegexLI := by
  unfold emitIf; split <;> rfl

theorem emitIf_emitted (b : Bool) (c : CB) (s : CState) :
    (emitIf b c s).emitted = s.emitted ++ (if b then [c] else []) := by
  unfold emitIf; split <;> simp

theorem isLitMatch_le (ic : Bool) (p t : List Char)
    (h : isLitMatch ic p t = true) : p.length ≤ t.length := by
  induction p generalizing t with
  | nil => simp
  | cons a ps ih =>
    cases t with
    | nil => simp [isLitMatch] at h
    | cons b ts =>
      simp only [isLitMatch, Bool.and_eq_true] at h
      have := ih ts h.2
      simp only [List.length_cons]
      omega

theorem findFrom_eq_none (re : JsRegex) (s : List Char)
    (h : ∀ j, matchesAt re s j = false) (li : Nat) :
    findFrom re s li = none := by
  unfold findFrom
  apply List.find?_eq_none.mpr
  intro j _
  simp [h]

theorem matchAllFrom_eq_nil (re : JsRegex) (s : List Char)
    (h : ∀ li, findFrom re s li = none) (fuel li : Nat) :
    matchAllFrom re s fuel li = [] := by
  cases fuel with
  | zero => rfl
  | succ n => simp [matchAllFrom, h li]

theorem matchesAt_goodbye (j : Nat) :
    matchesAt defaultRegex gbText j = false := by
  cases hm : matchesAt defaultRegex gbText j with
  | false => rfl
  | true =>
    exfalso
    unfold matchesAt at hm
    have hle := isLitMatch_le _ _ _ hm
    rw [List.length_drop] at hle
    have h1 : (defaultRegex.source).length = 11 := rfl
    have h2 : gbText.length = 7 := rfl
    omega

theorem scan_goodbye (li : Nat) :
    scanStep defaultRegex gbText li = (none, 0) := by
  have hf : ∀ li2, findFrom defaultRegex gbText li2 = none :=
    findFrom_eq_none _ _ matchesAt_goodbye
  have hm : jsMatchAll defaultRegex gbText li = [] :=
    matchAllFrom_eq_nil _ _ hf _ _
  have hnil : ∀ j, matchesAt defaultRegex ([] : List Char) j = false := by
    intro j
    cases h : matchesAt defaultRegex ([] : List Char) j with
    | false => rfl
    | true =>
      exfalso
      unfold matchesAt at h
      have hle := isLitMatch_le _ _ _ h
      rw [List.length_drop] at hle
      have h1 : (defaultRegex.source).length = 11 := rfl
      have h2 : ([] : List Char).length = 0 := rfl
      omega
  have ht : jsTest defaultRegex [] li = (false, 0) := by
    unfold jsTest
    rw [findFrom_eq_none _ _ hnil li]
  unfold scanStep
  rw [hm]
  simp [ht]

theorem hexDigit_inj_fin :
    ∀ a b : Fin 16, hexDigit a.val = hexDigit b.val → a = b := by decide

theorem hexDigit_inj (a b : Nat) (ha : a < 16) (hb : b < 16)
    (h : hexDigit a = hexDigit b) : a = b := by
  have := hexDigit_inj_fin ⟨a, ha⟩ ⟨b, hb⟩ h
  exact congrArg Fin.val this

theorem hexRep_ne_nil (n : Nat) : hexRep n ≠ [] := by
  unfold hexRep
  split <;> simp

theorem hexRep_small (n : Nat) (h : n < 16) : hexRep n = [hexDigit n] := by
  unfold hexRep
  rw [dif_pos h]

theorem hexRep_large (n : Nat) (h : ¬ n < 16) :
    hexRep n = hexRep (n / 16) ++ [hexDigit (n % 16)] := by
  conv_lhs => unfold hexRep
  rw [dif_neg h]

theorem hexRep_inj : ∀ m n : Nat, hexRep m = hexRep n → m = n := by
  intro m
  induction m using Nat.strong_induction_on with
  | _ m ih =>
    intro n h
    by_cases hm : m < 16 <;> by_cases hn : n < 16
    · rw [hexRep_small m hm, hexRep_small n hn] at h
      have hd : hexDigit m = hexDigit n := by injection h
      exact hexDigit_inj _ _ hm hn hd
    · exfalso
      rw [hexRep_small m hm, hexRep_large n hn] at h
      have hlen := congrArg List.length h
      simp only [List.length_cons, List.length_nil, List.length_append] at hlen
      have h0 : (hexRep (n / 16)).length = 0 := by omega
      exact hexRep_ne_nil (n / 16) (List.length_eq_zero.mp h0)
    · exfalso
      rw [hexRep_large m hm, hexRep_small n hn] at h
      have hlen := congrArg List.length h
      simp only [List.length_cons, List.length_nil, List.length_append] at hlen
      have h0 : (hexRep (m / 16)).length = 0 := by omega
      exact hexRep_ne_nil (m / 16) (List.length_eq_zero.mp h0)
    · rw [hexRep_large m hm, hexRep_large n hn] at h
      have h' := congrArg List.reverse h
      simp only [List.reverse_append, List.reverse_cons, List.reverse_nil,
        List.nil_append, List.singleton_append] at h'
      have hd : hexDigit (m % 16) = hexDigit (n % 16) := by injection h'
      have ht : (hexRep (m / 16)).reverse = (hexRep (n / 16)).reverse := by
        injection h'
      have e1 : m % 16 = n % 16 :=
        hexDigit_inj _ _ (Nat.mod_lt _ (by omega)) (Nat.mod_lt _ (by omega)) hd
      have e2 : m / 16 = n / 16 :=
        ih (m / 16) (Nat.div_lt_self (by omega) (by omega)) (n / 16)
          (List.reverse_injective ht)
      omega

theorem step_finalEvent (s : CState) (a : SRAlternative) :
    (step (Action.notif (finalEvent a)) s).transcripts
      = s.transcripts ++
        [{ id := hexRep (s.rng.headD 0), confidence := a.confidence,
           isFinal := true, transcript := a.transcript }] ∧
    (step (Action.notif (finalEvent a)) s).liveTranscript = [] ∧
    (step (Action.notif (finalEvent a)) s).rng = s.rng.tail ∧
    (step (Action.notif (finalEvent a)) s).wired = s.wired := by
  unfold step applyNotif finalEvent applyResult
  simp only [List.getElem?_cons_zero]
  split <;> simp

theorem step_interimEvent (s : CState) (a : SRAlternative) :
    (step (Action.notif (interimEvent a)) s).transcripts = s.transcripts ∧
    (step (Action.notif (interimEvent a)) s).liveTranscript = a.transcript ∧
    (step (Action.notif (interimEvent a)) s).rng = s.rng ∧
    (step (Action.notif (interimEvent a)) s).wired = s.wired := by
  unfold step applyNotif interimEvent applyResult
  simp only [List.getElem?_cons_zero]
  split <;> simp

theorem applyInterims_cons (s : CState) (a : SRAlternative)
    (as : List SRAlternative) :
    applyInterims s (a :: as)
      = applyInterims (step (Action.notif (interimEvent a)) s) as := rfl

theorem applyInterims_append_one (s : CState) (front : List SRAlternative)
    (a : SRAlternative) :
    applyInterims s (front ++ [a])
      = step (Action.notif (interimEvent a)) (applyInterims s front) := by
  unfold applyInterims
  rw [List.foldl_append]
  rfl

theorem applyInterims_fields (s : CState) (alts : List SRAlternative) :
    (applyInterims s alts).transcripts = s.transcripts ∧
    (applyInterims s alts).rng = s.rng := by
  induction alts generalizing s with
  | nil => exact ⟨rfl, rfl⟩
  | cons a as ih =>
    rw [applyInterims_cons]
    obtain ⟨h1, _, h3, _⟩ := step_interimEvent s a
    obtain ⟨g1, g2⟩ := ih (step (Action.notif (interimEvent a)) s)
    exact ⟨g1.trans h1, g2.trans h3⟩

theorem applyResult_engine (rs : List SRResult) (idx : Nat) (s : CState) :
    (applyResult rs idx s).engine = s.engine := by
  unfold applyResult
  split
  · rfl
  · split
    · rfl
    · split <;> split <;> rfl

theorem applyResult_emitted (rs : List SRResult) (idx : Nat) (s : CState) :
    (applyResult rs idx s).emitted = s.emitted ∨
    (applyResult rs idx s).emitted = s.emitted ++ [CB.cbResult] := by
  unfold applyResult
  split
  · exact Or.inl rfl
  · split
    · exact Or.inl rfl
    · split
      · split
        · exact Or.inr rfl
        · exact Or.inl rfl
      · split
        · exact Or.inr rfl
        · exact Or.inl rfl

theorem handleStart_engine (s : CState) : (handleStart s).engine = s.engine := by
  unfold handleStart
  simp

theorem handleStart_emitted (s : CState) :
    (handleStart s).emitted
      = s.emitted ++ (if s.wired.onend then [CB.cbEnd] else []) := by
  unfold handleStart
  simp [emitIf_emitted]

theorem handleEnd_eq (s : CState) :
    handleEnd s =
      { s with
          engine := { s.engine with stopCount := s.engine.stopCount + 1 }
          scheduled := s.scheduled ++
            (if s.wired.continuous then [STask.engineStart] else [])
          emitted := s.emitted ++ (if s.wired.onend then [CB.cbEnd] else [])
          isListening := false } := by
  unfold handleEnd
  by_cases hc : s.wired.continuous <;> by_cases he : s.wired.onend <;>
    simp [hc, he, emitIf]

theorem handleEnd_engine (s : CState) :
    (handleEnd s).engine
      = { s.engine with stopCount := s.engine.stopCount + 1 } := by
  rw [handleEnd_eq]

theorem handleEnd_emitted (s : CState) :
    (handleEnd s).emitted
      = s.emitted ++ (if s.wired.onend then [CB.cbEnd] else []) := by
  rw [handleEnd_eq]

theorem startFn_engine (so : Option StartOptions) (s : CState) :
    (startFn so s).engine = s.engine ∨
    (startFn so s).engine
      = { s.engine with startCount := s.engine.startCount + 1 } := by
  by_cases h : s.isListening
  · left
    cases so <;> simp [startFn, h]
  · right
    cases so <;> simp [startFn, h]

theorem startFn_emitted (so : Option StartOptions) (s : CState) :
    (startFn so s).emitted = s.emitted := by
  by_cases h : s.isListening <;> cases so <;> simp [startFn, h]

theorem runScheduled_eq_of_wrapper (s : CState) (so : Option StartOptions)
    (rest : List STask) (hs : s.scheduled = STask.wrapperStart so :: rest) :
    runScheduled s = startFn so { s with scheduled := rest } := by
  unfold runScheduled
  rw [hs]

theorem runScheduled_engine (s : CState) :
    (runScheduled s).engine = s.engine ∨
    (runScheduled s).engine
      = { s.engine with startCount := s.engine.startCount + 1 } := by
  rcases hs : s.scheduled with _ | ⟨t, rest⟩
  · left
    unfold runScheduled
    rw [hs]
  · cases t with
    | engineStart =>
      right
      unfold runScheduled
      rw [hs]
    | wrapperStart so =>
      rw [runScheduled_eq_of_wrapper s so rest hs]
      exact startFn_engine so { s with scheduled := rest }

theorem runScheduled_emitted (s : CState) :
    (runScheduled s).emitted = s.emitted := by
  rcases hs : s.scheduled with _ | ⟨t, rest⟩
  · unfold runScheduled
    rw [hs]
  · cases t with
    | engineStart =>
      unfold runScheduled
      rw [hs]
    | wrapperStart so =>
      rw [runScheduled_eq_of_wrapper s so rest hs, startFn_emitted]

theorem step_engine_config (a : Action) (s : CState) :
    (step a s).engine.grammars = s.engine.grammars ∧
    (step a s).engine.continuous = s.engine.continuous ∧
    (step a s).engine.interimResults = s.engine.interimResults ∧
    (step a s).engine.lang = s.engine.lang ∧
    (step a s).engine.maxAlternatives = s.engine.maxAlternatives := by
  have key : (step a s).engine = s.engine ∨
      (step a s).engine = { s.engine with startCount := s.engine.startCount + 1 } ∨
      (step a s).engine = { s.engine with stopCount := s.engine.stopCount + 1 } ∨
      (step a s).engine = { s.engine with abortCount := s.engine.abortCount + 1 } := by
    cases a with
    | notif n =>
      cases n with
      | audiostart => exact Or.inl (emitIf_engine _ _ _)
      | audioend => exact Or.inl (emitIf_engine _ _ _)
      | soundstart => exact Or.inl (emitIf_engine _ _ _)
      | soundend => exact Or.inl (emitIf_engine _ _ _)
      | speechstart => exact Or.inl (emitIf_engine _ _ _)
      | speechend => exact Or.inl (emitIf_engine _ _ _)
      | noMatchN => exact Or.inl (emitIf_engine _ _ _)
      | error => exact Or.inl (emitIf_engine _ _ _)
      | startN => exact Or.inl (handleStart_engine s)
      | endN => exact Or.inr (Or.inr (Or.inl (handleEnd_engine s)))
      | result rs idx => exact Or.inl (applyResult_engine rs idx s)
    | callStart so =>
      rcases startFn_engine so s with h | h
      · exact Or.inl h
      · exact Or.inr (Or.inl h)
    | callRestart so => exact Or.inr (Or.inr (Or.inl rfl))
    | callStop => exact Or.inr (Or.inr (Or.inl rfl))
    | callAbort => exact Or.inr (Or.inr (Or.inr rfl))
    | runTask =>
      rcases runScheduled_engine s with h | h
      · exact Or.inl h
      · exact Or.inr (Or.inl h)
  rcases key with h | h | h | h <;> rw [h] <;> exact ⟨rfl, rfl, rfl, rfl, rfl⟩

theorem not_mem_if_single (x c : CB) (b : Bool) (h : x ≠ c) :
    x ∉ (if b then [c] else []) := by
  split
  · simpa using h
  · simp

theorem step_emitted_shape (a : Action) (s : CState) :
    ∃ l : List CB, (step a s).emitted = s.emitted ++ l ∧ CB.cbStart ∉ l := by
  cases a with
  | notif n =>
    cases n with
    | audiostart => exact ⟨_, emitIf_emitted _ _ _, not_mem_if_single _ _ _ (by decide)⟩
    | audioend => exact ⟨_, emitIf_emitted _ _ _, not_mem_if_single _ _ _ (by decide)⟩
    | soundstart => exact ⟨_, emitIf_emitted _ _ _, not_mem_if_single _ _ _ (by decide)⟩
    | soundend => exact ⟨_, emitIf_emitted _ _ _, not_mem_if_single _ _ _ (by decide)⟩
    | speechstart => exact ⟨_, emitIf_emitted _ _ _, not_mem_if_single _ _ _ (by decide)⟩
    | speechend => exact ⟨_, emitIf_emitted _ _ _, not_mem_if_single _ _ _ (by decide)⟩
    | noMatchN => exact ⟨_, emitIf_emitted _ _ _, not_mem_if_single _ _ _ (by decide)⟩
    | error => exact ⟨_, emitIf_emitted _ _ _, not_mem_if_single _ _ _ (by decide)⟩
    | startN => exact ⟨_, handleStart_emitted s, not_mem_if_single _ _ _ (by decide)⟩
    | endN => exact ⟨_, handleEnd_emitted s, not_mem_if_single _ _ _ (by decide)⟩
    | result rs idx =>
      rcases applyResult_emitted rs idx s with h | h
      · exact ⟨[], by rw [List.append_nil]; exact h, by simp⟩
      · exact ⟨[CB.cbResult], h, by decide⟩
  | callStart so =>
    exact ⟨[], by rw [List.append_nil]; exact startFn_emitted so s, by simp⟩
  | callRestart so => exact ⟨[], by rw [List.append_nil]; rfl, by simp⟩
  | callStop => exact ⟨[], by rw [List.append_nil]; rfl, by simp⟩
  | callAbort => exact ⟨[], by rw [List.append_nil]; rfl, by simp⟩
  | runTask =>
    exact ⟨[], by rw [List.append_nil]; exact runScheduled_emitted s, by simp⟩

theorem step_no_new_cbStart (a : Action) (s : CState)
    (h : CB.cbStart ∉ s.emitted) : CB.cbStart ∉ (step a s).emitted := by
  obtain ⟨l, hl, hn⟩ := step_emitted_shape a s
  rw [hl]
  intro hm
  rcases List.mem_append.mp hm with hm | hm
  · exact h hm
  · exact hn hm

theorem runActions_no_cbStart (acts : List Action) (s : CState)
    (h : CB.cbStart ∉ s.emitted) :
    CB.cbStart ∉ (runActions s acts).emitted := by
  induction acts generalizing s with
  | nil => exact h
  | cons a as ih => exact ih (step a s) (step_no_new_cbStart a s h)

theorem mkController_emitted (u : UserOpts) (rng : List Nat) :
    (mkController u rng).emitted = [] := by
  unfold mkController initSpeechRecognition freshState
  by_cases h : (mergeUserOpts defaultOpts u).startOnLoad <;> simp [h]

/-! The claims. -/

/-- C1 (counterexample): the end-notification restart decision does not
follow the active config's `continuousMode`.  After `start({ continuous:
false })` the active config has `continuous = false`, yet the end
notification still schedules a deferred engine start, because `handleEnd`
was wired once at initialization and reads the initial options. -/
theorem C1_counterexample :
    c1State.opts.continuous = false ∧ c1State.scheduled = [STask.engineStart] := by
  decide

/-- C1 (amended): when the engine's end notification fires, the controller
issues exactly one engine stop, and consults the `continuous` flag that was
captured when the handlers were wired at initialization: if that flag is
true it schedules exactly one deferred engine start, which on the next
scheduling turn invokes the engine's start primitive once and, once the
engine's start notification arrives, returns the lifecycle to Listening; if
that flag is false, no start is scheduled and the lifecycle settles to
Idle. -/
theorem C1_auto_restart (s : CState) :
    (step (Action.notif ENotif.endN)
        { s with isInitialized := true, scheduled := ([] : List STask) }).engine.stopCount
      = s.engine.stopCount + 1 ∧
    (step (Action.notif ENotif.endN)
        { s with isInitialized := true, scheduled := ([] : List STask) }).engine.startCount
      = s.engine.startCount ∧
    (step (Action.notif ENotif.endN)
        { s with isInitialized := true, scheduled := ([] : List STask) }).isListening
      = false ∧
    (step (Action.notif ENotif.endN)
        { s with isInitialized := true, scheduled := ([] : List STask) }).scheduled
      = (if s.wired.continuous then [STask.engineStart] else []) ∧
    (if s.wired.continuous then
       (step Action.runTask (step (Action.notif ENotif.endN)
           { s with isInitialized := true,
                    scheduled := ([] : List STask) })).engine.startCount
         = s.engine.startCount + 1 ∧
       (step Action.runTask (step (Action.notif ENotif.endN)
           { s with isInitialized := true,
                    scheduled := ([] : List STask) })).scheduled = [] ∧
       lifecycleOf (step (Action.notif ENotif.startN)
           (step Action.runTask (step (Action.notif ENotif.endN)
             { s with isInitialized := true, scheduled := ([] : List STask) })))
         = LifecycleState.listening
     else
       lifecycleOf (step (Action.notif ENotif.endN)
           { s with isInitialized := true, scheduled := ([] : List STask) })
         = LifecycleState.idle) := by
  by_cases hc : s.wired.continuous <;>
    simp [step, applyNotif, handleEnd_eq, runScheduled, handleStart, lifecycleOf, hc]

/-- C2: after any sequence of interim results, handling one final result
appends exactly one new entry (with the event's confidence and text and a
fresh hex id) to the previously unchanged ledger, and leaves the live
transcript empty. -/
theorem C2_final_appends_one (s : CState) (alts : List SRAlternative)
    (a : SRAlternative) :
    (applyInterims s alts).transcripts = s.transcripts ∧
    (step (Action.notif (finalEvent a)) (applyInterims s alts)).transcripts
      = s.transcripts ++
        [{ id := hexRep (s.rng.headD 0), confidence := a.confidence,
           isFinal := true, transcript := a.transcript }] ∧
    (step (Action.notif (finalEvent a)) (applyInterims s alts)).liveTranscript
      = [] := by
  obtain ⟨ht, hr⟩ := applyInterims_fields s alts
  obtain ⟨f1, f2, _, _⟩ := step_finalEvent (applyInterims s alts) a
  exact ⟨ht, by rw [f1, ht, hr], f2⟩

/-- C3: on the example text the pattern-match step finds the two
non-overlapping matches of the default pattern at positions 7 and 26, takes
the last (rightmost) one, lower-cases it, and stores it as the current
match after the re-test succeeds; on the text "goodbye" the scan yields no
match regardless of the regex object's state, and a result event carrying
"goodbye" overwrites any previously stored match with "none". -/
theorem C3_rightmost_match :
    (jsMatchAll defaultRegex exText 0).map Prod.fst = [7, 26] ∧
    (jsMatchAll defaultRegex exText 0).getLast? = some (26, hwText) ∧
    (scanStep defaultRegex exText 0).1 = some hwText ∧
    (∀ li : Nat, (scanStep defaultRegex gbText li).1 = none) ∧
    (∀ (s : CState) (prior : Option (List Char)) (c : Rat) (b : Bool),
      (step (Action.notif (ENotif.result
          [{ alternatives := [{ transcript := gbText, confidence := c }],
             isFinal := b }] 0))
        { s with matchSt := prior,
                 wired := { s.wired with regex := defaultRegex } }).matchSt
        = none) := by
  refine ⟨by decide, by decide, by decide, ?_, ?_⟩
  · intro li
    rw [scan_goodbye]
  · intro s prior c b
    unfold step applyNotif applyResult
    simp only [List.getElem?_cons_zero]
    by_cases hb : b <;> by_cases ho : s.wired.onresult <;>
      simp [hb, ho, scan_goodbye]

/-- C4: the pattern-match step is not idempotent per call.  At the failing
input (the default `gi` pattern with a fresh `lastIndex` of 0 and the text
"hello world") the first scan stores the match, but the second scan with
the very same arguments stores "none", because `test` on a global regex
advanced the shared `lastIndex` to 11. -/
theorem C4_scan_not_idempotent :
    (scanStep defaultRegex hwText 0).1 = some hwText ∧
    (scanStep defaultRegex hwText (scanStep defaultRegex hwText 0).2).1 = none ∧
    (scanStep defaultRegex hwText 0).1
      ≠ (scanStep defaultRegex hwText (scanStep defaultRegex hwText 0).2).1 := by
  exact ⟨by decide, by decide, by decide⟩

/-- C5: calling `start` (with or without overrides) while the lifecycle is
Listening leaves the engine completely untouched — no additional engine
start invocation — and schedules nothing. -/
theorem C5_start_noop_when_listening (s : CState) (so : Option StartOptions) :
    (step (Action.callStart so) { s with isListening := true }).engine
      = s.engine ∧
    (step (Action.callStart so) { s with isListening := true }).scheduled
      = s.scheduled ∧
    (step (Action.callStart so) { s with isListening := true }).isListening
      = true := by
  cases so <;> exact ⟨rfl, rfl, rfl⟩

/-- C6: `restart` invokes the engine's stop primitive exactly once and
never its start primitive during the call itself; it only appends a
deferred wrapper-start task to the timeout queue, and that task, when the
scheduler runs it on a later turn (with the session no longer listening),
is what invokes the engine's start primitive. -/
theorem C6_restart_defers_start (s : CState) (so : Option StartOptions) :
    (step (Action.callRestart so) s).engine.startCount = s.engine.startCount ∧
    (step (Action.callRestart so) s).engine.stopCount = s.engine.stopCount + 1 ∧
    (step (Action.callRestart so) s).scheduled
      = s.scheduled ++ [STask.wrapperStart so] ∧
    (step Action.runTask
        { s with isListening := false,
                 scheduled := [STask.wrapperStart so] }).engine.startCount
      = s.engine.startCount + 1 := by
  refine ⟨rfl, rfl, rfl, ?_⟩
  cases so <;> rfl

/-- C7 (counterexample): an override supplied to `start` is merged into the
active config but is not applied to the engine by the time the resulting
engine-level start call runs.  On a fresh controller, `start({ lang:
"fr-FR" })` invokes the engine's start primitive while the engine's `lang`
field still holds the initial "en-US". -/
theorem C7_counterexample :
    c7State.engine.startCount = c7Start.engine.startCount + 1 ∧
    c7State.opts.lang = "fr-FR".toList ∧
    c7State.engine.lang = "en-US".toList ∧
    c7State.engine.lang ≠ c7State.opts.lang := by
  decide

/-- C7 (amended): overrides supplied to `start` are shallow-merged onto the
current active config in full, but the engine's config fields (grammars,
continuous, interimResults, lang, maxAlternatives) are assigned only during
the one-time initialization: every post-initialization step of the
controller leaves all of them unchanged, so merged override values never
reach the engine. -/
theorem C7_overrides_merge_engine_frozen (s : CState) (o : StartOptions)
    (a : Action) :
    (step (Action.callStart (some o)) s).opts = mergeOpts s.opts o ∧
    (step a s).engine.grammars = s.engine.grammars ∧
    (step a s).engine.continuous = s.engine.continuous ∧
    (step a s).engine.interimResults = s.engine.interimResults ∧
    (step a s).engine.lang = s.engine.lang ∧
    (step a s).engine.maxAlternatives = s.engine.maxAlternatives := by
  obtain ⟨h1, h2, h3, h4, h5⟩ := step_engine_config a s
  refine ⟨?_, h1, h2, h3, h4, h5⟩
  by_cases h : s.isListening <;> simp [step, startFn, h]

/-- C8: a sequence of interim-only results never changes the ledger, and
after each event the live transcript equals the text of the most recently
received interim result. -/
theorem C8_interim_only (s : CState) (front : List SRAlternative)
    (a : SRAlternative) :
    (applyInterims s front).transcripts = s.transcripts ∧
    (applyInterims s (front ++ [a])).transcripts = s.transcripts ∧
    (applyInterims s (front ++ [a])).liveTranscript = a.transcript := by
  obtain ⟨h1, _⟩ := applyInterims_fields s front
  obtain ⟨g1, _⟩ := applyInterims_fields s (front ++ [a])
  obtain ⟨_, i2, _, _⟩ := step_interimEvent (applyInterims s front) a
  exact ⟨h1, g1, by rw [applyInterims_append_one, i2]⟩

/-- C9 (counterexample): two consecutive final results do not always get
distinct ids.  When the id entropy source yields the integer part 5 twice,
both ledger entries receive the id "5". -/
theorem C9_counterexample :
    c9State.transcripts.map Transcript.id = [hexRep 5, hexRep 5] ∧
    ¬ (c9State.transcripts.map Transcript.id).Nodup := by
  have h0 : (mkController {} [5, 5]).rng = [5, 5] := rfl
  have ht : (mkController {} [5, 5]).transcripts = [] := rfl
  obtain ⟨f1, _, f3, _⟩ :=
    step_finalEvent (mkController {} [5, 5]) ⟨"a".toList, 1⟩
  obtain ⟨g1, _, _, _⟩ :=
    step_finalEvent
      (step (Action.notif (finalEvent ⟨"a".toList, 1⟩)) (mkController {} [5, 5]))
      ⟨"b".toList, 1⟩
  have hmap : c9State.transcripts.map Transcript.id = [hexRep 5, hexRep 5] := by
    unfold c9State
    rw [g1, f3, f1, h0, ht]
    simp
  refine ⟨hmap, ?_⟩
  rw [hmap]
  simp

/-- C9 (amended): two consecutive final results append two entries in
arrival order whose confidence and text fields equal exactly the supplied
values; their ids are the hex representations of two successive draws of
the id source and are distinct whenever those draws differ. -/
theorem C9_two_finals (s : CState) (a b : SRAlternative)
    (h : s.rng.headD 0 ≠ s.rng.tail.headD 0) :
    (step (Action.notif (finalEvent b))
        (step (Action.notif (finalEvent a)) s)).transcripts
      = s.transcripts ++
        [{ id := hexRep (s.rng.headD 0), confidence := a.confidence,
           isFinal := true, transcript := a.transcript },
         { id := hexRep (s.rng.tail.headD 0), confidence := b.confidence,
           isFinal := true, transcript := b.transcript }] ∧
    hexRep (s.rng.headD 0) ≠ hexRep (s.rng.tail.headD 0) := by
  obtain ⟨f1, _, f3, _⟩ := step_finalEvent s a
  obtain ⟨g1, _, _, _⟩ :=
    step_finalEvent (step (Action.notif (finalEvent a)) s) b
  constructor
  · rw [g1, f1, f3]
    simp
  · intro he
    exact h (hexRep_inj _ _ he)

/-- C9 (witness): the amended two-finals theorem applied to a concrete
controller whose entropy stream yields the distinct draws 1 and 2. -/
theorem C9_two_finals_witness :
    (mkController {} [1, 2]).rng.headD 0
      ≠ (mkController {} [1, 2]).rng.tail.headD 0 ∧
    ((step (Action.notif (finalEvent ⟨"b".toList, 1⟩))
        (step (Action.notif (finalEvent ⟨"a".toList, 1⟩))
          (mkController {} [1, 2]))).transcripts
      = (mkController {} [1, 2]).transcripts ++
        [{ id := hexRep ((mkController {} [1, 2]).rng.headD 0),
           confidence := (1 : Rat), isFinal := true, transcript := "a".toList },
         { id := hexRep ((mkController {} [1, 2]).rng.tail.headD 0),
           confidence := (1 : Rat), isFinal := true,
           transcript := "b".toList }] ∧
      hexRep ((mkController {} [1, 2]).rng.headD 0)
        ≠ hexRep ((mkController {} [1, 2]).rng.tail.headD 0)) :=
  ⟨by decide,
   C9_two_finals (mkController {} [1, 2]) ⟨"a".toList, 1⟩ ⟨"b".toList, 1⟩
     (by decide)⟩

/-- C10: on the engine's start notification the controller sets the
listening flag and invokes the caller-supplied `onend` callback slot (and
only when it is non-null); the caller-supplied `onstart` slot is never
invoked by the controller at any point of any run. -/
theorem C10_start_notification (s : CState) (u : UserOpts) (rng : List Nat)
    (acts : List Action) :
    (step (Action.notif ENotif.startN) s).isListening = true ∧
    (step (Action.notif ENotif.startN) s).emitted
      = s.emitted ++ (if s.wired.onend then [CB.cbEnd] else []) ∧
    CB.cbStart ∉ (runActions (mkController u rng) acts).emitted := by
  refine ⟨rfl, handleStart_emitted s, ?_⟩
  apply runActions_no_cbStart
  rw [mkController_emitted]
  simp

end SpeechRec
